import Mathlib

set_option maxHeartbeats 1000000

/-! Verification of the simulation / sonification core of `sound_of_life.py`.

The Python program evolves a 2-D binary cellular automaton (`Grid` class)
and keeps a registry of running audio voices synchronized with the live
cells (`SoundManager` class).  This file gives a shallow embedding of
those two classes and proves the behavioural properties stated about
them.  Modelling conventions:

* the numpy boolean array `self.grid` becomes a row-major `List (List Bool)`;
* Python `int` indices and neighbor counts become `Nat`;
* Python floats (frequencies, amplitudes) become `ℚ` — every float
  computation of the source is a plain arithmetic formula;
* the pyo oscillator / envelope dictionaries are keyed by `(row, col)`
  pairs, and only the keys matter to the stated properties, so the
  registries become ordered key lists (Python dicts preserve insertion
  order, deletion keeps the order of the remaining keys);
* calls into the pyo audio backend are recorded in an explicit command
  trace (`SCmd`), since the stated properties count and inspect them;
* a numpy index error (reading an out-of-range cell of a grid argument)
  is modelled with `Except`, since `update_sounds` can raise. -/

/-- Embeds the simulation state of the `Grid` widget class: dimensions,
the boolean cell array `self.grid`, and `self.rules` (a dict with the
lists `birth` and `survival`).  GUI-only fields (cell size, colors,
gridline flag) are omitted. -/
structure Grid where
  rows : ℕ
  cols : ℕ
  grid : List (List Bool)
  birth : List ℕ
  survival : List ℕ
deriving DecidableEq

/-- Reading `cells[row][col]`; `none` when the index is out of range
(numpy raises `IndexError` there). -/
def getCell? (cells : List (List Bool)) (row col : ℕ) : Option Bool :=
  cells[row]?.bind fun r => r[col]?

/-- Total read used where the source code only ever indexes in bounds
(under the grid shape invariant the default is never consulted). -/
def cellD (cells : List (List Bool)) (row col : ℕ) : Bool :=
  (getCell? cells row col).getD false

/-- The numpy array invariant: `cells` is a `rows × cols` matrix. -/
def gridShape (cells : List (List Bool)) (rows cols : ℕ) : Prop :=
  cells.length = rows ∧ ∀ r ∈ cells, r.length = cols

/-- The `Grid` class invariant: `self.grid` has shape `(rows, cols)`. -/
def wfGrid (g : Grid) : Prop := gridShape g.grid g.rows g.cols

/-- `Grid.set_rules`: replaces both rule lists. -/
def set_rules (g : Grid) (birth survival : List ℕ) : Grid :=
  { g with birth := birth, survival := survival }

/-- `np.zeros((rows, cols), dtype=bool)`: the all-dead cell array. -/
def deadCells (rows cols : ℕ) : List (List Bool) :=
  List.replicate rows (List.replicate cols false)

/-- The index list `range(max(0, x - 1), min(limit, x + 2))` of
`Grid.count_alive_neighbors` (truncated subtraction gives `max 0` for free). -/
def nbrIndices (limit x : ℕ) : List ℕ :=
  List.range' (x - 1) (min limit (x + 2) - (x - 1))

/-- `Grid.count_alive_neighbors`: double loop over the clamped index
ranges, counting live cells other than the center. -/
def count_alive_neighbors (g : Grid) (row col : ℕ) : ℕ :=
  ((nbrIndices g.rows row).map fun i =>
    ((nbrIndices g.cols col).map fun j =>
      if (i ≠ row ∨ j ≠ col) ∧ cellD g.grid i j then 1 else 0).sum).sum

/-- `Grid.update_grid`: builds the next generation from a copy of the
current array.  The source copies `self.grid` and then overwrites every
cell that changes; under the shape invariant this is the pointwise rule
below (alive cells stay alive exactly when the count is in `survival`,
dead cells become alive exactly when it is in `birth`), with all
neighbor counts taken on the grid as it was at the start of the step. -/
def update_grid (g : Grid) : Grid :=
  { g with grid :=
      (List.range g.rows).map fun row =>
        (List.range g.cols).map fun col =>
          if cellD g.grid row col then
            decide (count_alive_neighbors g row col ∈ g.survival)
          else
            decide (count_alive_neighbors g row col ∈ g.birth) }

/-- `Grid.resize_grid`: a fresh all-dead array of the new size with the
overlapping top-left `min` rectangle copied from the old array. -/
def resize_grid (g : Grid) (newRows newCols : ℕ) : Grid :=
  { g with
    rows := newRows
    cols := newCols
    grid :=
      (List.range newRows).map fun r =>
        (List.range newCols).map fun c =>
          if r < min g.rows newRows ∧ c < min g.cols newCols then
            cellD g.grid r c
          else false }

/-- Modelled from the spec for the refinement claim C1 (the source is the
clamped double loop above; this definition follows the spec words): the
number of live Moore (8-connected) neighbors of `(row, col)` — in-bounds
cells other than the center at Chebyshev distance at most 1 (so exactly
the 8-connected neighborhood), edges clamped so cells outside the
boundary never count. -/
def spec_neighbor_count (g : Grid) (row col : ℕ) : ℕ :=
  ((List.range g.rows).map fun i =>
    ((List.range g.cols).map fun j =>
      if (row ≤ i + 1 ∧ i ≤ row + 1) ∧ (col ≤ j + 1 ∧ j ≤ col + 1) ∧
          ((i ≠ row ∨ j ≠ col) ∧ cellD g.grid i j) then 1 else 0).sum).sum

/-- The blinker grid of claim C9: a 5×5 Conway (B3/S23) grid whose only
live cells are `(2,1)`, `(2,2)`, `(2,3)`. -/
def blinkerGrid : Grid :=
  { rows := 5, cols := 5,
    grid :=
      [[false, false, false, false, false],
       [false, false, false, false, false],
       [false, true,  true,  true,  false],
       [false, false, false, false, false],
       [false, false, false, false, false]],
    birth := [3], survival := [2, 3] }

/-! ## The sound manager -/

/-- The pyo oscillator classes used by `SoundManager.get_waveform_class`. -/
inductive PyoOsc
  | Sine
  | Square
  | Saw
  | Tri
deriving DecidableEq

/-- `SoundManager.get_waveform_class`: dictionary lookup with default `Sine`. -/
def get_waveform_class (w : String) : PyoOsc :=
  if w = "Sine" then PyoOsc.Sine
  else if w = "Square" then PyoOsc.Square
  else if w = "Sawtooth" then PyoOsc.Saw
  else if w = "Triangle" then PyoOsc.Tri
  else PyoOsc.Sine

/-- Commands the `SoundManager` issues to the pyo audio backend.
`start key osc freq amp fadein` records creating and starting an
oscillator for a cell (`play_sound`: waveform class, frequency, target
amplitude, and whether the start was wrapped in a `Fader` fade-in);
`stopEnv` records `Fader.stop()` (begin fade-out); `stop` records
stopping a cell's oscillator; `serverStop` records `Server.stop()`. -/
inductive SCmd
  | start (key : ℕ × ℕ) (osc : PyoOsc) (freq : ℚ) (amp : ℚ) (fadein : Bool)
  | stopEnv (key : ℕ × ℕ)
  | stop (key : ℕ × ℕ)
  | serverStop
deriving DecidableEq

/-- The commands addressed to a single voice (`play_sound` starts and
`oscillator.stop()` stops); envelope fade-outs and the server-level stop
are not per-voice lifecycle commands. -/
def isVoiceCmd : SCmd → Bool
  | SCmd.start _ _ _ _ _ => true
  | SCmd.stop _ => true
  | _ => false

/-- A per-voice stop command. -/
def isStopCmd : SCmd → Bool
  | SCmd.stop _ => true
  | _ => false

/-- The error raised by a numpy out-of-range index in `update_sounds`. -/
inductive PyError
  | indexError
deriving DecidableEq

/-- Embeds the state of the `SoundManager` class.  `gridRows`/`gridCols`
are the dimensions of the `Grid` widget the manager holds a reference to
(`self.grid.rows`, `self.grid.cols`); `oscillators` and `envelopes` are
the key lists of the two dictionaries (insertion-ordered); the pyo
`Server` item is replaced by the command trace returned alongside each
operation. -/
structure SoundManager where
  gridRows : ℕ
  gridCols : ℕ
  frequency_range : ℚ × ℚ
  amplitude : ℚ
  waveform : String
  smooth_transitions : Bool
  oscillators : List (ℕ × ℕ)
  envelopes : List (ℕ × ℕ)
deriving DecidableEq

/-- `SoundManager.calculate_frequency`:
`freq = fmin + (fmax - fmin) * (col / cols)` then
`freq += (fmax - fmin) * (row / rows) * 0.5`. -/
def calculate_frequency (m : SoundManager) (row col : ℕ) : ℚ :=
  m.frequency_range.1
    + (m.frequency_range.2 - m.frequency_range.1) * ((col : ℚ) / (m.gridCols : ℚ))
    + (m.frequency_range.2 - m.frequency_range.1) * ((row : ℚ) / (m.gridRows : ℚ)) * (1 / 2)

/-- `SoundManager.play_sound`: no-op when the key is already registered;
otherwise start an oscillator of the current waveform class at the
mapped frequency (wrapped in a fade-in `Fader` envelope when
`smooth_transitions`, registered in `envelopes`), and register it. -/
def play_sound (m : SoundManager) (row col : ℕ) : SoundManager × List SCmd :=
  if (row, col) ∈ m.oscillators then (m, [])
  else
    ({ m with
        oscillators := m.oscillators ++ [(row, col)]
        envelopes :=
          if m.smooth_transitions then m.envelopes ++ [(row, col)] else m.envelopes },
     [SCmd.start (row, col) (get_waveform_class m.waveform)
        (calculate_frequency m row col) m.amplitude m.smooth_transitions])

/-- `SoundManager.stop_sound`: no-op when the key is absent; otherwise
stop the envelope (when smooth and present), stop the oscillator, and
delete both registry entries. -/
def stop_sound (m : SoundManager) (row col : ℕ) : SoundManager × List SCmd :=
  if (row, col) ∈ m.oscillators then
    ({ m with
        oscillators := m.oscillators.filter fun k => decide (k ≠ (row, col))
        envelopes := m.envelopes.filter fun k => decide (k ≠ (row, col)) },
     (if m.smooth_transitions ∧ (row, col) ∈ m.envelopes
      then [SCmd.stopEnv (row, col)] else []) ++ [SCmd.stop (row, col)])
  else (m, [])

/-- The row-major coordinate sequence of the double loop
`for row in range(rows): for col in range(cols):`. -/
def coordList (rows cols : ℕ) : List (ℕ × ℕ) :=
  ((List.range rows).map fun r => (List.range cols).map fun c => (r, c)).flatten

/-- One iteration of the `update_sounds` loop body at coordinate `rc`:
read both grids (an out-of-range read raises), start the voice on a
dead→alive transition, stop it on alive→dead, otherwise do nothing. -/
def sounds_step (previous current : List (List Bool))
    (acc : Except PyError (SoundManager × List SCmd)) (rc : ℕ × ℕ) :
    Except PyError (SoundManager × List SCmd) :=
  match acc with
  | Except.error e => Except.error e
  | Except.ok (m, tr) =>
    match getCell? previous rc.1 rc.2, getCell? current rc.1 rc.2 with
    | some was_alive, some is_alive =>
      match was_alive, is_alive with
      | false, true =>
        let p := play_sound m rc.1 rc.2
        Except.ok (p.1, tr ++ p.2)
      | true, false =>
        let s := stop_sound m rc.1 rc.2
        Except.ok (s.1, tr ++ s.2)
      | _, _ => Except.ok (m, tr)
    | _, _ => Except.error PyError.indexError

/-- `SoundManager.update_sounds` (the reconcile operation): iterate over
the manager's grid dimensions comparing the two grid snapshots. -/
def update_sounds (m : SoundManager) (previous current : List (List Bool)) :
    Except PyError (SoundManager × List SCmd) :=
  (coordList m.gridRows m.gridCols).foldl (sounds_step previous current)
    (Except.ok (m, []))

/-- One iteration of the `update_all_waveforms` loop: stop and restart
the voice at `key`. -/
def waveform_step (acc : SoundManager × List SCmd) (key : ℕ × ℕ) :
    SoundManager × List SCmd :=
  let s := stop_sound acc.1 key.1 key.2
  let p := play_sound s.1 key.1 key.2
  (p.1, acc.2 ++ s.2 ++ p.2)

/-- `SoundManager.update_all_waveforms`: snapshot the active keys, then
stop and restart each one. -/
def update_all_waveforms (m : SoundManager) : SoundManager × List SCmd :=
  m.oscillators.foldl waveform_step (m, [])

/-- `SoundManager.set_waveform`: store the new type and restart all. -/
def set_waveform (m : SoundManager) (waveform_type : String) :
    SoundManager × List SCmd :=
  update_all_waveforms { m with waveform := waveform_type }

/-- `SoundManager.shutdown`: `self.server.stop()` and nothing else. -/
def shutdown (m : SoundManager) : SoundManager × List SCmd :=
  (m, [SCmd.serverStop])

/-- The coordinate `rc` holds a live cell of `cells`. -/
def aliveAt (cells : List (List Bool)) (rc : ℕ × ℕ) : Prop :=
  getCell? cells rc.1 rc.2 = some true

/-- A driver-style sequence of reconcile calls: starting from snapshot
`g0`, feed each successive grid as the `current` of one `update_sounds`
call whose `previous` is the preceding grid. -/
def reconcile_chain (m : SoundManager) (g0 : List (List Bool)) :
    List (List (List Bool)) → Except PyError SoundManager
  | [] => Except.ok m
  | g1 :: rest =>
    match update_sounds m g0 g1 with
    | Except.error e => Except.error e
    | Except.ok p => reconcile_chain p.1 g1 rest

/-- A `SoundManager` with the constructor defaults of the source
(`frequency_range = (200, 1000)`, `amplitude = 0.5`, waveform `Sine`,
smooth transitions on) over an `R × C` grid, with a given set of active
voices (each smooth-started voice also has an envelope). -/
def mkManager (R C : ℕ) (osc : List (ℕ × ℕ)) : SoundManager :=
  { gridRows := R
    gridCols := C
    frequency_range := (200, 1000)
    amplitude := 1 / 2
    waveform := "Sine"
    smooth_transitions := true
    oscillators := osc
    envelopes := osc }

/- ------------------------------------------------------------------ -/
/- Helper lemmas about grids.                                          -/
/- ------------------------------------------------------------------ -/

lemma sum_map_range (n : ℕ) (f : ℕ → ℕ) :
    ((List.range n).map f).sum = ∑ j in Finset.range n, f j := by
  induction n with
  | zero => simp
  | succ n ih => simp [List.range_succ, Finset.sum_range_succ, ih]

lemma mem_nbrIndices {limit x j : ℕ} (hx : x < limit) :
    j ∈ nbrIndices limit x ↔ j < limit ∧ x ≤ j + 1 ∧ j ≤ x + 1 := by
  unfold nbrIndices
  rw [List.mem_range'_1]
  omega

lemma nodup_nbrIndices (limit x : ℕ) : (nbrIndices limit x).Nodup := by
  unfold nbrIndices
  exact List.nodup_range' _ _

lemma ite_and_nest (A B : Prop) [Decidable A] [Decidable B] (n : ℕ) :
    (if A ∧ B then n else 0) = if A then (if B then n else 0) else 0 := by
  by_cases hA : A <;> by_cases hB : B <;> simp [hA, hB]

lemma ite_sum_pull (A : Prop) [Decidable A] (l : List ℕ) (h : ℕ → ℕ) :
    ((l.map fun j => if A then h j else 0).sum) =
      if A then (l.map h).sum else 0 := by
  by_cases hA : A <;> simp [hA]

lemma inner_eq (n x : ℕ) (hx : x < n) (f : ℕ → ℕ) :
    ((nbrIndices n x).map f).sum =
      ((List.range n).map fun j => if x ≤ j + 1 ∧ j ≤ x + 1 then f j else 0).sum := by
  rw [sum_map_range]
  have hnd := nodup_nbrIndices n x
  have h1 : ((nbrIndices n x).map f).sum = (nbrIndices n x).toFinset.sum f := by
    rw [List.sum_toFinset f hnd]
  have h2 : (nbrIndices n x).toFinset =
      (Finset.range n).filter (fun j => x ≤ j + 1 ∧ j ≤ x + 1) := by
    ext j
    simp only [List.mem_toFinset, mem_nbrIndices hx, Finset.mem_filter, Finset.mem_range]
  rw [h1, h2, Finset.sum_filter]

lemma count_eq_spec (g : Grid) (row col : ℕ)
    (hr : row < g.rows) (hc : col < g.cols) :
    count_alive_neighbors g row col = spec_neighbor_count g row col := by
  unfold count_alive_neighbors spec_neighbor_count
  rw [inner_eq g.rows row hr]
  simp only [inner_eq g.cols col hc]
  simp only [ite_and_nest, ite_sum_pull]

lemma getCell?_of_shape {cells : List (List Bool)} {rows cols r c : ℕ}
    (h : gridShape cells rows cols) (hr : r < rows) (hc : c < cols) :
    getCell? cells r c = some (cellD cells r c) := by
  obtain ⟨hlen, hrow⟩ := h
  have hr' : r < cells.length := hlen ▸ hr
  have hmem : cells[r] ∈ cells := List.getElem_mem hr'
  have hc' : c < (cells[r]).length := by rw [hrow _ hmem]; exact hc
  unfold getCell? cellD
  rw [List.getElem?_eq_getElem hr']
  simp [getCell?, List.getElem?_eq_getElem hr', List.getElem?_eq_getElem hc']

lemma getCell?_none_of_out {cells : List (List Bool)} {rows cols r c : ℕ}
    (h : gridShape cells rows cols) (hout : ¬(r < rows ∧ c < cols)) :
    getCell? cells r c = none := by
  obtain ⟨hlen, hrow⟩ := h
  unfold getCell?
  by_cases hr : r < rows
  · have hr' : r < cells.length := hlen ▸ hr
    have hmem : cells[r] ∈ cells := List.getElem_mem hr'
    have hc : ¬ c < cols := fun hc => hout ⟨hr, hc⟩
    have hc' : (cells[r]).length ≤ c := by rw [hrow _ hmem]; omega
    rw [List.getElem?_eq_getElem hr']
    simp [List.getElem?_eq_none hc']
  · have hr' : cells.length ≤ r := by omega
    simp [List.getElem?_eq_none hr']

lemma getCell?_update_grid (g : Grid) {row col : ℕ}
    (hr : row < g.rows) (hc : col < g.cols) :
    getCell? (update_grid g).grid row col =
      some (if cellD g.grid row col then
              decide (count_alive_neighbors g row col ∈ g.survival)
            else
              decide (count_alive_neighbors g row col ∈ g.birth)) := by
  unfold update_grid getCell?
  simp [List.getElem?_eq_getElem, List.getElem?_range hr, List.getElem?_range hc]

/-- C1: `update_grid` computes the next generation synchronously: for
each in-bounds cell the number of live Moore (8-connected) neighbors is
counted with clamped, non-wrapping edges on the grid as it was at the
start of the step (`count_alive_neighbors` agrees with the spec-level
Moore count), and the cell's new value is: stays alive iff the count is
in `survival`, becomes alive iff it was dead and the count is in
`birth`, i.e. dead when alive with a count not in `survival`, alive when
dead with a count in `birth`, unchanged otherwise; the engine's state is
the resulting grid of unchanged dimensions. -/
theorem c1_step_synchronous (g : Grid) (row col : ℕ)
    (hr : row < g.rows) (hc : col < g.cols) :
    count_alive_neighbors g row col = spec_neighbor_count g row col ∧
    (update_grid g).rows = g.rows ∧
    (update_grid g).cols = g.cols ∧
    getCell? (update_grid g).grid row col =
      some (if cellD g.grid row col then
              decide (spec_neighbor_count g row col ∈ g.survival)
            else
              decide (spec_neighbor_count g row col ∈ g.birth)) := by
  refine ⟨count_eq_spec g row col hr hc, rfl, rfl, ?_⟩
  rw [getCell?_update_grid g hr hc, count_eq_spec g row col hr hc]

/-- Witness for C1 at a concrete input: the blinker grid at cell (1, 2)
(a dead cell with three live neighbors, so it becomes alive). -/
theorem c1_step_synchronous_witness :
    count_alive_neighbors blinkerGrid 1 2 = spec_neighbor_count blinkerGrid 1 2 ∧
    (update_grid blinkerGrid).rows = blinkerGrid.rows ∧
    (update_grid blinkerGrid).cols = blinkerGrid.cols ∧
    getCell? (update_grid blinkerGrid).grid 1 2 =
      some (if cellD blinkerGrid.grid 1 2 then
              decide (spec_neighbor_count blinkerGrid 1 2 ∈ blinkerGrid.survival)
            else
              decide (spec_neighbor_count blinkerGrid 1 2 ∈ blinkerGrid.birth)) :=
  c1_step_synchronous blinkerGrid 1 2 (by decide) (by decide)

/-- C9: under B3/S23 the horizontal 3-cell blinker at rows/cols 1..3 of
a 5×5 grid returns to exactly its original configuration after exactly
2 steps and differs from it after 1 step. -/
theorem c9_blinker_period_two :
    (update_grid (update_grid blinkerGrid)).grid = blinkerGrid.grid ∧
    (update_grid blinkerGrid).grid ≠ blinkerGrid.grid := by
  exact ⟨by decide, by decide⟩

lemma cellD_deadCells (R C i j : ℕ) : cellD (deadCells R C) i j = false := by
  unfold cellD getCell? deadCells
  rcases Nat.lt_or_ge i R with hi | hi
  · rw [List.getElem?_replicate_of_lt hi]
    rcases Nat.lt_or_ge j C with hj | hj
    · simp [List.getElem?_replicate_of_lt hj]
    · have hlen : (List.replicate C (false : Bool)).length ≤ j := by simpa using hj
      simp [List.getElem?_eq_none hlen]
  · have hlen : (List.replicate R (List.replicate C (false : Bool))).length ≤ i := by
      simpa using hi
    simp [List.getElem?_eq_none hlen]

lemma count_alive_neighbors_dead (g : Grid)
    (hg : g.grid = deadCells g.rows g.cols) (row col : ℕ) :
    count_alive_neighbors g row col = 0 := by
  unfold count_alive_neighbors
  rw [hg]
  simp [cellD_deadCells]

lemma map_range_const {α : Type} (n : ℕ) (f : ℕ → α) (b : α)
    (h : ∀ x, f x = b) : (List.range n).map f = List.replicate n b := by
  induction n with
  | zero => simp
  | succ n ih => simp [List.range_succ, ih, h, List.replicate_succ']

lemma update_grid_dead (g : Grid) (hg : g.grid = deadCells g.rows g.cols)
    (h0 : 0 ∉ g.birth) : (update_grid g).grid = deadCells g.rows g.cols := by
  show ((List.range g.rows).map fun row =>
      (List.range g.cols).map fun col =>
        if cellD g.grid row col then
          decide (count_alive_neighbors g row col ∈ g.survival)
        else
          decide (count_alive_neighbors g row col ∈ g.birth)) =
    deadCells g.rows g.cols
  unfold deadCells
  apply map_range_const
  intro row
  apply map_range_const
  intro col
  rw [hg, cellD_deadCells, count_alive_neighbors_dead g hg]
  simp [h0]

/-- C5 (amended): for every rule pair accepted by `set_rules` whose
birth list does not contain 0, stepping an all-dead grid of any
dimensions yields an all-dead grid.  (The original claim, quantifying
over rule sets that may contain 0, is refuted by
`c5_counterexample`: when `0 ∈ birth` every dead cell of an all-dead
grid has 0 live neighbors and is born.) -/
theorem c5_dead_grid_stable (g : Grid) (birth survival : List ℕ)
    (hg : g.grid = deadCells g.rows g.cols) (h0 : 0 ∉ birth) :
    (update_grid (set_rules g birth survival)).grid = deadCells g.rows g.cols := by
  have h := update_grid_dead (set_rules g birth survival)
    (by simpa [set_rules] using hg) (by simpa [set_rules] using h0)
  simpa [set_rules] using h

/-- C5 counterexample: `set_rules` accepts `birth = [0]`, and stepping
the all-dead 1×1 grid under it yields a live cell, not an all-dead
grid. -/
theorem c5_counterexample :
    (update_grid (set_rules
        { rows := 1, cols := 1, grid := deadCells 1 1,
          birth := [3], survival := [2, 3] } [0] [])).grid ≠ deadCells 1 1 := by
  decide

/-- Witness for the amended C5 at a concrete input (Conway rules on an
all-dead 2×3 grid). -/
theorem c5_dead_grid_stable_witness :
    (update_grid (set_rules
        { rows := 2, cols := 3, grid := deadCells 2 3,
          birth := [3], survival := [2, 3] } [3] [2, 3])).grid = deadCells 2 3 :=
  c5_dead_grid_stable
    { rows := 2, cols := 3, grid := deadCells 2 3, birth := [3], survival := [2, 3] }
    [3] [2, 3] rfl (by decide)

/-- C8: `resize_grid` produces a grid of exactly the requested
dimensions; every cell inside the top-left overlap rectangle
(`min(oldRows,newRows) × min(oldCols,newCols)`) keeps its old value and
every other in-bounds cell is dead; shrinking needs no hypothesis
relating old and new sizes, so out-of-range cells are discarded without
error. -/
theorem c8_resize_overlap (g : Grid) (newRows newCols r c : ℕ)
    (hwf : wfGrid g) (hr : r < newRows) (hc : c < newCols) :
    (resize_grid g newRows newCols).rows = newRows ∧
    (resize_grid g newRows newCols).cols = newCols ∧
    gridShape (resize_grid g newRows newCols).grid newRows newCols ∧
    getCell? (resize_grid g newRows newCols).grid r c =
      (if r < min g.rows newRows ∧ c < min g.cols newCols
       then getCell? g.grid r c
       else some false) := by
  refine ⟨rfl, rfl, ⟨by simp [resize_grid], ?_⟩, ?_⟩
  · intro rowl hrowl
    simp only [resize_grid, List.mem_map, List.mem_range] at hrowl
    obtain ⟨i, _, hi⟩ := hrowl
    simp [← hi]
  · have hcell : getCell? (resize_grid g newRows newCols).grid r c =
        some (if r < min g.rows newRows ∧ c < min g.cols newCols
              then cellD g.grid r c else false) := by
      unfold resize_grid getCell?
      simp [List.getElem?_eq_getElem, List.getElem?_range hr, List.getElem?_range hc]
    rw [hcell]
    by_cases hov : r < min g.rows newRows ∧ c < min g.cols newCols
    · rw [if_pos hov, if_pos hov,
        getCell?_of_shape hwf (lt_of_lt_of_le hov.1 (min_le_left _ _))
          (lt_of_lt_of_le hov.2 (min_le_left _ _))]
    · rw [if_neg hov, if_neg hov]

/-- Witness for C8 at a concrete input: shrinking the 5×5 blinker grid
to 2×7 (fewer rows, more columns), at cell (1, 1) of the overlap. -/
theorem c8_resize_overlap_witness :
    (resize_grid blinkerGrid 2 7).rows = 2 ∧
    (resize_grid blinkerGrid 2 7).cols = 7 ∧
    gridShape (resize_grid blinkerGrid 2 7).grid 2 7 ∧
    getCell? (resize_grid blinkerGrid 2 7).grid 1 1 =
      (if 1 < min blinkerGrid.rows 2 ∧ 1 < min blinkerGrid.cols 7
       then getCell? blinkerGrid.grid 1 1
       else some false) :=
  c8_resize_overlap blinkerGrid 2 7 1 1
    (by unfold wfGrid gridShape; exact ⟨by decide, by decide⟩) (by decide) (by decide)

/-- C6: the frequency mapping is the pure deterministic function
`freq = fmin + (fmax - fmin) * (col / cols) + 0.5 * (fmax - fmin) * (row / rows)`
of cell position, current range and current grid dimensions, and with
range (200, 1000) on a 20×20 grid cell (0,0) maps to 200 and cell
(19,19) maps to 1340. -/
theorem c6_frequency_mapping :
    (∀ (m : SoundManager) (row col : ℕ),
      calculate_frequency m row col =
        m.frequency_range.1
          + (m.frequency_range.2 - m.frequency_range.1) * ((col : ℚ) / (m.gridCols : ℚ))
          + (1 / 2) * (m.frequency_range.2 - m.frequency_range.1)
              * ((row : ℚ) / (m.gridRows : ℚ))) ∧
    calculate_frequency (mkManager 20 20 []) 0 0 = 200 ∧
    calculate_frequency (mkManager 20 20 []) 19 19 = 1340 := by
  refine ⟨fun m row col => by unfold calculate_frequency; ring, ?_, ?_⟩
  · norm_num [calculate_frequency, mkManager]
  · norm_num [calculate_frequency, mkManager]

lemma nat_div_mono (n : ℕ) {a b : ℕ} (h : a ≤ b) :
    (a : ℚ) / (n : ℚ) ≤ (b : ℚ) / (n : ℚ) := by
  rcases Nat.eq_zero_or_pos n with hn | hn
  · simp [hn]
  · have hn' : (0 : ℚ) < (n : ℚ) := by exact_mod_cast hn
    exact (div_le_div_right hn').mpr (by exact_mod_cast h)

/-- C10 (amended): the computed frequency is not clamped to the
configured range.  With an ordered range (`fmin ≤ fmax`),
`calculate_frequency` is monotonically non-decreasing in both row and
col; the maximum over in-bounds cells of a `rows × cols` grid is
attained at `(rows-1, cols-1)` and equals
`fmin + (fmax - fmin) * ((cols-1)/cols + (rows-1)/(2*rows))`; and this
maximum strictly exceeds `fmax` whenever `fmax > fmin`, `rows ≥ 2`,
`cols ≥ 2` **and** `2*rows + cols < rows*cols` (the extra size condition
the counterexample forces: for a 2×2 grid the maximum is below `fmax`). -/
theorem c10_frequency_not_clamped (m : SoundManager) :
    (m.frequency_range.1 ≤ m.frequency_range.2 →
      ∀ r c r2 c2 : ℕ, r ≤ r2 → c ≤ c2 →
        calculate_frequency m r c ≤ calculate_frequency m r2 c2) ∧
    (1 ≤ m.gridRows → 1 ≤ m.gridCols →
      (m.frequency_range.1 ≤ m.frequency_range.2 →
        ∀ r c : ℕ, r < m.gridRows → c < m.gridCols →
          calculate_frequency m r c ≤
            calculate_frequency m (m.gridRows - 1) (m.gridCols - 1)) ∧
      calculate_frequency m (m.gridRows - 1) (m.gridCols - 1) =
        m.frequency_range.1 + (m.frequency_range.2 - m.frequency_range.1) *
          (((m.gridCols : ℚ) - 1) / (m.gridCols : ℚ)
            + ((m.gridRows : ℚ) - 1) / (2 * (m.gridRows : ℚ)))) ∧
    (m.frequency_range.1 < m.frequency_range.2 →
      2 ≤ m.gridRows → 2 ≤ m.gridCols →
      2 * m.gridRows + m.gridCols < m.gridRows * m.gridCols →
      m.frequency_range.2 <
        calculate_frequency m (m.gridRows - 1) (m.gridCols - 1)) := by
  have hmono : m.frequency_range.1 ≤ m.frequency_range.2 →
      ∀ r c r2 c2 : ℕ, r ≤ r2 → c ≤ c2 →
        calculate_frequency m r c ≤ calculate_frequency m r2 c2 := by
    intro hle r c r2 c2 hr hc
    have hd : (0 : ℚ) ≤ m.frequency_range.2 - m.frequency_range.1 :=
      sub_nonneg.mpr hle
    have h1 := mul_le_mul_of_nonneg_left (nat_div_mono m.gridCols hc) hd
    have h2 := mul_le_mul_of_nonneg_left (nat_div_mono m.gridRows hr) hd
    unfold calculate_frequency
    linarith
  refine ⟨hmono, fun hR hC => ⟨?_, ?_⟩, ?_⟩
  · intro hle r c hr hc
    exact hmono hle r c (m.gridRows - 1) (m.gridCols - 1) (by omega) (by omega)
  · have hR' : ((m.gridRows - 1 : ℕ) : ℚ) = (m.gridRows : ℚ) - 1 := by
      rw [Nat.cast_sub hR]; norm_num
    have hC' : ((m.gridCols - 1 : ℕ) : ℚ) = (m.gridCols : ℚ) - 1 := by
      rw [Nat.cast_sub hC]; norm_num
    have hRne : (m.gridRows : ℚ) ≠ 0 := by
      exact_mod_cast Nat.pos_iff_ne_zero.mp hR
    have hCne : (m.gridCols : ℚ) ≠ 0 := by
      exact_mod_cast Nat.pos_iff_ne_zero.mp hC
    unfold calculate_frequency
    rw [hR', hC']
    field_simp
    ring
  · intro hlt hR2 hC2 hsize
    have hR : 1 ≤ m.gridRows := by omega
    have hC : 1 ≤ m.gridCols := by omega
    have hR' : ((m.gridRows - 1 : ℕ) : ℚ) = (m.gridRows : ℚ) - 1 := by
      rw [Nat.cast_sub hR]; norm_num
    have hC' : ((m.gridCols - 1 : ℕ) : ℚ) = (m.gridCols : ℚ) - 1 := by
      rw [Nat.cast_sub hC]; norm_num
    have hR0 : (0 : ℚ) < (m.gridRows : ℚ) := by exact_mod_cast hR
    have hC0 : (0 : ℚ) < (m.gridCols : ℚ) := by exact_mod_cast hC
    have hcast : 2 * (m.gridRows : ℚ) + (m.gridCols : ℚ)
        < (m.gridRows : ℚ) * (m.gridCols : ℚ) := by exact_mod_cast hsize
    have hd : (0 : ℚ) < m.frequency_range.2 - m.frequency_range.1 :=
      sub_pos.mpr hlt
    have hkey : (1 : ℚ) <
        ((m.gridCols : ℚ) - 1) / (m.gridCols : ℚ)
          + ((m.gridRows : ℚ) - 1) / (2 * (m.gridRows : ℚ)) := by
      rw [div_add_div _ _ (ne_of_gt hC0) (by positivity),
        lt_div_iff (by positivity)]
      nlinarith
    have hval : calculate_frequency m (m.gridRows - 1) (m.gridCols - 1)
        = m.frequency_range.1 + (m.frequency_range.2 - m.frequency_range.1) *
            (((m.gridCols : ℚ) - 1) / (m.gridCols : ℚ)
              + ((m.gridRows : ℚ) - 1) / (2 * (m.gridRows : ℚ))) := by
      unfold calculate_frequency
      rw [hR', hC']
      field_simp
      ring
    rw [hval]
    nlinarith [mul_lt_mul_of_pos_left hkey hd]

/-- C10 counterexample: on a 2×2 grid with range (200, 1000) — so
rows ≥ 2, cols ≥ 2 and fmax > fmin — the maximum of the frequency map
over the four in-bounds cells is 800, which does not strictly exceed
fmax = 1000, refuting the claim as stated. -/
theorem c10_counterexample :
    calculate_frequency (mkManager 2 2 []) 0 0 ≤
        calculate_frequency (mkManager 2 2 []) 1 1 ∧
    calculate_frequency (mkManager 2 2 []) 0 1 ≤
        calculate_frequency (mkManager 2 2 []) 1 1 ∧
    calculate_frequency (mkManager 2 2 []) 1 0 ≤
        calculate_frequency (mkManager 2 2 []) 1 1 ∧
    calculate_frequency (mkManager 2 2 []) 1 1 = 800 ∧
    ¬ ((mkManager 2 2 []).frequency_range.2 <
        calculate_frequency (mkManager 2 2 []) 1 1) := by
  norm_num [calculate_frequency, mkManager]

/-- Witness for the amended C10 at a concrete input: the default 20×20
manager is monotone between (3,4) and (5,6), and its maximum frequency
1340 exceeds fmax = 1000. -/
theorem c10_frequency_not_clamped_witness :
    calculate_frequency (mkManager 20 20 []) 3 4 ≤
        calculate_frequency (mkManager 20 20 []) 5 6 ∧
    (mkManager 20 20 []).frequency_range.2 <
      calculate_frequency (mkManager 20 20 [])
        ((mkManager 20 20 []).gridRows - 1) ((mkManager 20 20 []).gridCols - 1) :=
  ⟨(c10_frequency_not_clamped (mkManager 20 20 [])).1
      (by norm_num [mkManager]) 3 4 5 6 (by norm_num) (by norm_num),
   (c10_frequency_not_clamped (mkManager 20 20 [])).2.2
      (by norm_num [mkManager]) (by norm_num [mkManager])
      (by norm_num [mkManager]) (by norm_num [mkManager])⟩

/-- C3 counterexample: with one active voice registered, `shutdown`
(that is, `self.server.stop()`) leaves the registry non-empty and issues
zero per-voice stop commands, refuting both the "stop command for every
active voice" and the "leaves the registry empty" parts of the claim. -/
theorem c3_counterexample :
    (shutdown (mkManager 1 1 [(0, 0)])).1.oscillators ≠ [] ∧
    ((shutdown (mkManager 1 1 [(0, 0)])).2.filter isStopCmd) = [] := by
  exact ⟨by decide, rfl⟩

/-- C3 (amended): `shutdown` issues exactly one server-level stop
command and no per-voice stop commands, and leaves the registry
unchanged (not emptied).  It is idempotent in the sense that a second
call in succession behaves identically — in particular neither call
issues any per-voice stop command — and the registry after both calls
equals the registry before them. -/
theorem c3_shutdown_server_only (m : SoundManager) :
    shutdown m = (m, [SCmd.serverStop]) ∧
    (shutdown m).2.filter isStopCmd = [] ∧
    shutdown (shutdown m).1 = (m, [SCmd.serverStop]) :=
  ⟨rfl, rfl, rfl⟩

lemma foldl_sounds_error (previous current : List (List Bool)) (e : PyError) :
    ∀ L : List (ℕ × ℕ),
      L.foldl (sounds_step previous current) (Except.error e) = Except.error e := by
  intro L
  induction L with
  | nil => rfl
  | cons rc L ih => rw [List.foldl_cons]; exact ih

lemma sounds_step_ok_of_reads (previous current : List (List Bool))
    (m : SoundManager) (tr : List SCmd) (rc : ℕ × ℕ)
    (hp : (getCell? previous rc.1 rc.2).isSome)
    (hc : (getCell? current rc.1 rc.2).isSome) :
    ∃ m2 tr2, sounds_step previous current (Except.ok (m, tr)) rc =
      Except.ok (m2, tr2) := by
  obtain ⟨was, hwas⟩ := Option.isSome_iff_exists.mp hp
  obtain ⟨is, his⟩ := Option.isSome_iff_exists.mp hc
  unfold sounds_step
  rw [hwas, his]
  cases was <;> cases is <;> exact ⟨_, _, rfl⟩

lemma sounds_step_error_of_bad (previous current : List (List Bool))
    (m : SoundManager) (tr : List SCmd) (rc : ℕ × ℕ)
    (hb : getCell? previous rc.1 rc.2 = none ∨ getCell? current rc.1 rc.2 = none) :
    sounds_step previous current (Except.ok (m, tr)) rc =
      Except.error PyError.indexError := by
  unfold sounds_step
  rcases hb with hb | hb
  · rw [hb]
  · rw [hb]
    rcases h : getCell? previous rc.1 rc.2 with _ | b
    · rfl
    · rfl

lemma foldl_sounds_ok (previous current : List (List Bool)) :
    ∀ (L : List (ℕ × ℕ)),
      (∀ rc ∈ L, (getCell? previous rc.1 rc.2).isSome ∧
        (getCell? current rc.1 rc.2).isSome) →
      ∀ (m : SoundManager) (tr : List SCmd),
        ∃ m2 tr2, L.foldl (sounds_step previous current) (Except.ok (m, tr)) =
          Except.ok (m2, tr2) := by
  intro L
  induction L with
  | nil => exact fun _ m tr => ⟨m, tr, rfl⟩
  | cons rc L ih =>
    intro h m tr
    obtain ⟨m1, tr1, h1⟩ := sounds_step_ok_of_reads previous current m tr rc
      (h rc (List.mem_cons_self rc L)).1 (h rc (List.mem_cons_self rc L)).2
    rw [List.foldl_cons, h1]
    exact ih (fun rc2 h2 => h rc2 (List.mem_cons_of_mem rc h2)) m1 tr1

lemma foldl_sounds_bad (previous current : List (List Bool)) :
    ∀ (L : List (ℕ × ℕ)),
      (∃ rc ∈ L, getCell? previous rc.1 rc.2 = none ∨
        getCell? current rc.1 rc.2 = none) →
      ∀ (m : SoundManager) (tr : List SCmd),
        L.foldl (sounds_step previous current) (Except.ok (m, tr)) =
          Except.error PyError.indexError := by
  intro L
  induction L with
  | nil => rintro ⟨rc, h, -⟩; exact absurd h (List.not_mem_nil rc)
  | cons rc L ih =>
    rintro ⟨rc2, hmem, hbad⟩ m tr
    by_cases hb : getCell? previous rc.1 rc.2 = none ∨ getCell? current rc.1 rc.2 = none
    · rw [List.foldl_cons, sounds_step_error_of_bad previous current m tr rc hb,
        foldl_sounds_error]
    · push_neg at hb
      obtain ⟨m1, tr1, h1⟩ := sounds_step_ok_of_reads previous current m tr rc
        (Option.ne_none_iff_isSome.mp hb.1) (Option.ne_none_iff_isSome.mp hb.2)
      rw [List.foldl_cons, h1]
      rcases List.mem_cons.mp hmem with heq | hmem2
      · subst heq
        rcases hbad with hbad | hbad
        · exact absurd hbad hb.1
        · exact absurd hbad hb.2
      · exact ih ⟨rc2, hmem2, hbad⟩ m1 tr1

/-- C4 (amended): `update_sounds` iterates over the manager's own grid
dimensions, reading both snapshots at each coordinate.  It raises an
index error — reported to the caller — exactly when one of the two grid
arguments is too small to cover some coordinate of that region; a pair
of grids of unequal dimensions that both cover the manager's region is
processed without any failure signal (the claim as stated, for *every*
unequal-dimension pair, is refuted by `c4_counterexample`, where the
oversized `current` grid is silently truncated to the manager's
region). -/
theorem c4_dimension_mismatch (m : SoundManager)
    (previous current : List (List Bool)) :
    ((∃ rc ∈ coordList m.gridRows m.gridCols,
        getCell? previous rc.1 rc.2 = none ∨ getCell? current rc.1 rc.2 = none) →
      update_sounds m previous current = Except.error PyError.indexError) ∧
    ((∀ rc ∈ coordList m.gridRows m.gridCols,
        (getCell? previous rc.1 rc.2).isSome ∧
        (getCell? current rc.1 rc.2).isSome) →
      ∃ m2 tr, update_sounds m previous current = Except.ok (m2, tr)) :=
  ⟨fun hbad => foldl_sounds_bad previous current _ hbad m [],
   fun hgood => foldl_sounds_ok previous current _ hgood m []⟩

/-- C4 counterexample: `previous` is 1×1 and `current` is 2×2 — unequal
dimensions — yet reconcile over the 1×1 manager grid returns normally
(no failure signal), silently ignoring the live cell at (1,1). -/
theorem c4_counterexample :
    update_sounds (mkManager 1 1 []) [[false]] [[false, false], [false, true]] =
      Except.ok (mkManager 1 1 [], []) ∧
    ([[false]] : List (List Bool)).length ≠
      ([[false, false], [false, true]] : List (List Bool)).length := by
  exact ⟨rfl, by decide⟩

/-- Witness for the amended C4 at a concrete input: an empty `previous`
grid cannot cover the 1×1 manager region, so reconcile raises. -/
theorem c4_dimension_mismatch_witness :
    update_sounds (mkManager 1 1 []) [] [[true]] =
      Except.error PyError.indexError :=
  (c4_dimension_mismatch (mkManager 1 1 []) [] [[true]]).1
    ⟨(0, 0), by decide, Or.inl rfl⟩

lemma calculate_frequency_congr (m m0 : SoundManager)
    (hf : m.frequency_range = m0.frequency_range)
    (hR : m.gridRows = m0.gridRows) (hC : m.gridCols = m0.gridCols)
    (r c : ℕ) : calculate_frequency m r c = calculate_frequency m0 r c := by
  unfold calculate_frequency
  rw [hf, hR, hC]

lemma length_flatten_pairs {α β : Type} (l : List α) (f g : α → β) :
    ((l.map fun k => [f k, g k]).flatten).length = 2 * l.length := by
  induction l with
  | nil => rfl
  | cons a l ih =>
    simp only [List.map_cons, List.flatten_cons, List.length_append, ih,
      List.length_cons, List.length_nil]
    omega


lemma stop_sound_gridRows (m : SoundManager) (r c : ℕ) :
    (stop_sound m r c).1.gridRows = m.gridRows := by
  unfold stop_sound; split <;> rfl

lemma stop_sound_gridCols (m : SoundManager) (r c : ℕ) :
    (stop_sound m r c).1.gridCols = m.gridCols := by
  unfold stop_sound; split <;> rfl

lemma stop_sound_frequency_range (m : SoundManager) (r c : ℕ) :
    (stop_sound m r c).1.frequency_range = m.frequency_range := by
  unfold stop_sound; split <;> rfl

lemma stop_sound_amplitude (m : SoundManager) (r c : ℕ) :
    (stop_sound m r c).1.amplitude = m.amplitude := by
  unfold stop_sound; split <;> rfl

lemma stop_sound_waveform (m : SoundManager) (r c : ℕ) :
    (stop_sound m r c).1.waveform = m.waveform := by
  unfold stop_sound; split <;> rfl

lemma stop_sound_smooth (m : SoundManager) (r c : ℕ) :
    (stop_sound m r c).1.smooth_transitions = m.smooth_transitions := by
  unfold stop_sound; split <;> rfl

lemma play_sound_gridRows (m : SoundManager) (r c : ℕ) :
    (play_sound m r c).1.gridRows = m.gridRows := by
  unfold play_sound; split <;> rfl

lemma play_sound_gridCols (m : SoundManager) (r c : ℕ) :
    (play_sound m r c).1.gridCols = m.gridCols := by
  unfold play_sound; split <;> rfl

lemma play_sound_frequency_range (m : SoundManager) (r c : ℕ) :
    (play_sound m r c).1.frequency_range = m.frequency_range := by
  unfold play_sound; split <;> rfl

lemma play_sound_amplitude (m : SoundManager) (r c : ℕ) :
    (play_sound m r c).1.amplitude = m.amplitude := by
  unfold play_sound; split <;> rfl

lemma play_sound_waveform (m : SoundManager) (r c : ℕ) :
    (play_sound m r c).1.waveform = m.waveform := by
  unfold play_sound; split <;> rfl

lemma play_sound_smooth (m : SoundManager) (r c : ℕ) :
    (play_sound m r c).1.smooth_transitions = m.smooth_transitions := by
  unfold play_sound; split <;> rfl

lemma stop_sound_osc_of_mem (m : SoundManager) (r c : ℕ)
    (h : (r, c) ∈ m.oscillators) :
    (stop_sound m r c).1.oscillators =
      m.oscillators.filter fun x => decide (x ≠ (r, c)) := by
  unfold stop_sound; rw [if_pos h]

lemma stop_sound_trace_of_mem (m : SoundManager) (r c : ℕ)
    (h : (r, c) ∈ m.oscillators) :
    (stop_sound m r c).2 =
      (if m.smooth_transitions ∧ (r, c) ∈ m.envelopes
       then [SCmd.stopEnv (r, c)] else []) ++ [SCmd.stop (r, c)] := by
  unfold stop_sound; rw [if_pos h]

lemma play_sound_osc_of_not_mem (m : SoundManager) (r c : ℕ)
    (h : (r, c) ∉ m.oscillators) :
    (play_sound m r c).1.oscillators = m.oscillators ++ [(r, c)] := by
  unfold play_sound; rw [if_neg h]

lemma play_sound_trace_of_not_mem (m : SoundManager) (r c : ℕ)
    (h : (r, c) ∉ m.oscillators) :
    (play_sound m r c).2 =
      [SCmd.start (r, c) (get_waveform_class m.waveform)
        (calculate_frequency m r c) m.amplitude m.smooth_transitions] := by
  unfold play_sound; rw [if_neg h]

lemma waveform_fold (m0 : SoundManager) :
    ∀ (ks : List (ℕ × ℕ)) (m : SoundManager) (tr : List SCmd),
      m.waveform = m0.waveform → m.frequency_range = m0.frequency_range →
      m.gridRows = m0.gridRows → m.gridCols = m0.gridCols →
      m.amplitude = m0.amplitude → m.smooth_transitions = m0.smooth_transitions →
      ks.Nodup → (∀ k ∈ ks, k ∈ m.oscillators) →
      ((ks.foldl waveform_step (m, tr)).2.filter isVoiceCmd
        = tr.filter isVoiceCmd ++
          (ks.map fun k => [SCmd.stop k,
            SCmd.start k (get_waveform_class m0.waveform)
              (calculate_frequency m0 k.1 k.2) m0.amplitude
              m0.smooth_transitions]).flatten) := by
  intro ks
  induction ks with
  | nil => intro m tr _ _ _ _ _ _ _ _; simp
  | cons k ks ih =>
    intro m tr hw hf hR hC ha hs hnd hmem
    have hk : (k.1, k.2) ∈ m.oscillators := by
      rw [Prod.mk.eta]; exact hmem k (List.mem_cons_self k ks)
    have hknotin : (k.1, k.2) ∉ (stop_sound m k.1 k.2).1.oscillators := by
      rw [stop_sound_osc_of_mem m k.1 k.2 hk]
      simp [List.mem_filter]
    have hw2 : (waveform_step (m, tr) k).1.waveform = m0.waveform := by
      show (play_sound (stop_sound m k.1 k.2).1 k.1 k.2).1.waveform = _
      rw [play_sound_waveform, stop_sound_waveform, hw]
    have hf2 : (waveform_step (m, tr) k).1.frequency_range = m0.frequency_range := by
      show (play_sound (stop_sound m k.1 k.2).1 k.1 k.2).1.frequency_range = _
      rw [play_sound_frequency_range, stop_sound_frequency_range, hf]
    have hR2 : (waveform_step (m, tr) k).1.gridRows = m0.gridRows := by
      show (play_sound (stop_sound m k.1 k.2).1 k.1 k.2).1.gridRows = _
      rw [play_sound_gridRows, stop_sound_gridRows, hR]
    have hC2 : (waveform_step (m, tr) k).1.gridCols = m0.gridCols := by
      show (play_sound (stop_sound m k.1 k.2).1 k.1 k.2).1.gridCols = _
      rw [play_sound_gridCols, stop_sound_gridCols, hC]
    have ha2 : (waveform_step (m, tr) k).1.amplitude = m0.amplitude := by
      show (play_sound (stop_sound m k.1 k.2).1 k.1 k.2).1.amplitude = _
      rw [play_sound_amplitude, stop_sound_amplitude, ha]
    have hs2 : (waveform_step (m, tr) k).1.smooth_transitions = m0.smooth_transitions := by
      show (play_sound (stop_sound m k.1 k.2).1 k.1 k.2).1.smooth_transitions = _
      rw [play_sound_smooth, stop_sound_smooth, hs]
    have hosc2 : (waveform_step (m, tr) k).1.oscillators
        = (m.oscillators.filter fun x => decide (x ≠ (k.1, k.2))) ++ [(k.1, k.2)] := by
      show (play_sound (stop_sound m k.1 k.2).1 k.1 k.2).1.oscillators = _
      rw [play_sound_osc_of_not_mem _ _ _ hknotin, stop_sound_osc_of_mem m k.1 k.2 hk]
    have hmem2 : ∀ x ∈ ks, x ∈ (waveform_step (m, tr) k).1.oscillators := by
      intro x hx
      rw [hosc2]
      apply List.mem_append_left
      rw [List.mem_filter]
      refine ⟨hmem x (List.mem_cons_of_mem k hx), ?_⟩
      have hxk : x ≠ k := fun h => (List.nodup_cons.mp hnd).1 (h ▸ hx)
      simp [Prod.mk.eta, hxk]
    have htr2 : (waveform_step (m, tr) k).2
        = tr ++ ((if m.smooth_transitions ∧ (k.1, k.2) ∈ m.envelopes
              then [SCmd.stopEnv (k.1, k.2)] else []) ++ [SCmd.stop (k.1, k.2)])
            ++ [SCmd.start (k.1, k.2) (get_waveform_class m.waveform)
                (calculate_frequency m k.1 k.2) m.amplitude m.smooth_transitions] := by
      show tr ++ (stop_sound m k.1 k.2).2
          ++ (play_sound (stop_sound m k.1 k.2).1 k.1 k.2).2 = _
      rw [stop_sound_trace_of_mem m k.1 k.2 hk,
        play_sound_trace_of_not_mem _ _ _ hknotin,
        stop_sound_waveform, stop_sound_amplitude, stop_sound_smooth,
        calculate_frequency_congr (stop_sound m k.1 k.2).1 m
          (stop_sound_frequency_range m k.1 k.2) (stop_sound_gridRows m k.1 k.2)
          (stop_sound_gridCols m k.1 k.2)]
    rw [List.foldl_cons,
      show waveform_step (m, tr) k
        = ((waveform_step (m, tr) k).1, (waveform_step (m, tr) k).2) from rfl,
      ih _ _ hw2 hf2 hR2 hC2 ha2 hs2 (List.Nodup.of_cons hnd) hmem2, htr2]
    have h1 : ((if m.smooth_transitions ∧ (k.1, k.2) ∈ m.envelopes
          then [SCmd.stopEnv (k.1, k.2)] else [])
          ++ [SCmd.stop (k.1, k.2)]).filter isVoiceCmd
        = [SCmd.stop (k.1, k.2)] := by
      by_cases hse : m.smooth_transitions ∧ (k.1, k.2) ∈ m.envelopes <;>
        simp [hse, isVoiceCmd]
    rw [List.map_cons, List.flatten_cons, List.filter_append, List.filter_append,
      h1, hw, ha, hs, calculate_frequency_congr m m0 hf hR hC, Prod.mk.eta]
    simp [isVoiceCmd, List.append_assoc]

/-- C7: with N voices active (the registry, whose keys are distinct as
Python dict keys), `set_waveform` issues exactly N stop-then-start
command pairs — per registry entry, one stop of that voice immediately
followed by one start at the same coordinate, with the frequency
recomputed by the unchanged mapping (same range and grid dimensions),
the stored amplitude, and the new waveform. -/
theorem c7_waveform_change (m : SoundManager) (waveform_type : String)
    (hnd : m.oscillators.Nodup) :
    ((set_waveform m waveform_type).2.filter isVoiceCmd
      = (m.oscillators.map fun k => [SCmd.stop k,
          SCmd.start k (get_waveform_class waveform_type)
            (calculate_frequency m k.1 k.2) m.amplitude
            m.smooth_transitions]).flatten) ∧
    ((set_waveform m waveform_type).2.filter isVoiceCmd).length
      = 2 * m.oscillators.length := by
  have h := waveform_fold { m with waveform := waveform_type }
    m.oscillators { m with waveform := waveform_type } []
    rfl rfl rfl rfl rfl rfl hnd (fun _ h => h)
  have heq : (set_waveform m waveform_type).2.filter isVoiceCmd
      = (m.oscillators.map fun k => [SCmd.stop k,
          SCmd.start k (get_waveform_class waveform_type)
            (calculate_frequency m k.1 k.2) m.amplitude
            m.smooth_transitions]).flatten := by
    refine Eq.trans ?_ (Eq.trans h ?_)
    · rfl
    · simp [calculate_frequency]
  exact ⟨heq, by rw [heq]; exact length_flatten_pairs m.oscillators _ _⟩

/-- Witness for C7 at a concrete input: two active voices on a 4×4
default manager, switched to Square. -/
theorem c7_waveform_change_witness :
    ((set_waveform (mkManager 4 4 [(0, 0), (1, 2)]) "Square").2.filter isVoiceCmd
      = ((mkManager 4 4 [(0, 0), (1, 2)]).oscillators.map fun k => [SCmd.stop k,
          SCmd.start k (get_waveform_class "Square")
            (calculate_frequency (mkManager 4 4 [(0, 0), (1, 2)]) k.1 k.2)
            (mkManager 4 4 [(0, 0), (1, 2)]).amplitude
            (mkManager 4 4 [(0, 0), (1, 2)]).smooth_transitions]).flatten) ∧
    ((set_waveform (mkManager 4 4 [(0, 0), (1, 2)]) "Square").2.filter
        isVoiceCmd).length
      = 2 * (mkManager 4 4 [(0, 0), (1, 2)]).oscillators.length :=
  c7_waveform_change (mkManager 4 4 [(0, 0), (1, 2)]) "Square" (by decide)

lemma mem_coordList {R C : ℕ} {rc : ℕ × ℕ} :
    rc ∈ coordList R C ↔ rc.1 < R ∧ rc.2 < C := by
  unfold coordList
  rw [List.mem_flatten]
  constructor
  · rintro ⟨s, hs, hrc⟩
    rw [List.mem_map] at hs
    obtain ⟨r, hr, rfl⟩ := hs
    rw [List.mem_map] at hrc
    obtain ⟨c, hc, rfl⟩ := hrc
    exact ⟨List.mem_range.mp hr, List.mem_range.mp hc⟩
  · rintro ⟨h1, h2⟩
    refine ⟨(List.range C).map fun c => (rc.1, c), ?_, ?_⟩
    · rw [List.mem_map]
      exact ⟨rc.1, List.mem_range.mpr h1, rfl⟩
    · rw [List.mem_map]
      exact ⟨rc.2, List.mem_range.mpr h2, by rw [Prod.mk.eta]⟩

lemma nodup_coordList {R C : ℕ} : (coordList R C).Nodup := by
  unfold coordList
  rw [List.nodup_flatten]
  constructor
  · intro l hl
    rw [List.mem_map] at hl
    obtain ⟨r, _, rfl⟩ := hl
    exact (List.nodup_range C).map fun a b h => by
      simpa using congrArg Prod.snd h
  · rw [List.pairwise_map]
    refine List.Pairwise.imp ?_ (List.nodup_range R)
    intro a b hab x hx1 hx2
    rw [List.mem_map] at hx1 hx2
    obtain ⟨c1, _, rfl⟩ := hx1
    obtain ⟨c2, _, h2⟩ := hx2
    exact hab (congrArg Prod.fst h2).symm

lemma sounds_fold_inv (previous current : List (List Bool)) :
    ∀ (L : List (ℕ × ℕ)) (m : SoundManager) (tr : List SCmd) (f : ℕ × ℕ → Prop),
      L.Nodup →
      (∀ rc ∈ L, (getCell? previous rc.1 rc.2).isSome ∧
        (getCell? current rc.1 rc.2).isSome) →
      (∀ k, k ∈ m.oscillators ↔ f k) →
      (∀ k ∈ L, (f k ↔ getCell? previous k.1 k.2 = some true)) →
      ∃ m2 tr2,
        L.foldl (sounds_step previous current) (Except.ok (m, tr)) =
          Except.ok (m2, tr2) ∧
        m2.gridRows = m.gridRows ∧ m2.gridCols = m.gridCols ∧
        (∀ k, k ∈ m2.oscillators ↔
          ((k ∈ L ∧ getCell? current k.1 k.2 = some true) ∨ (k ∉ L ∧ f k))) := by
  intro L
  induction L with
  | nil =>
    intro m tr f _ _ hreg _
    exact ⟨m, tr, rfl, rfl, rfl, fun k => by simpa using hreg k⟩
  | cons rc L ih =>
    intro m tr f hnd hreads hreg hfL
    have hrcL : rc ∉ L := (List.nodup_cons.mp hnd).1
    obtain ⟨was, hwas⟩ :=
      Option.isSome_iff_exists.mp (hreads rc (List.mem_cons_self rc L)).1
    obtain ⟨is, his⟩ :=
      Option.isSome_iff_exists.mp (hreads rc (List.mem_cons_self rc L)).2
    have hfrc : f rc ↔ was = true := by
      have h := hfL rc (List.mem_cons_self rc L)
      rw [hwas] at h
      simpa using h
    have hreads2 : ∀ x ∈ L, (getCell? previous x.1 x.2).isSome ∧
        (getCell? current x.1 x.2).isSome :=
      fun x hx => hreads x (List.mem_cons_of_mem rc hx)
    rw [List.foldl_cons]
    cases was <;> cases is
    · -- dead → dead: no-op
      have hstep : sounds_step previous current (Except.ok (m, tr)) rc =
          Except.ok (m, tr) := by
        unfold sounds_step
        rw [hwas, his]
      rw [hstep]
      obtain ⟨m2, tr2, hfold, hR, hC, hfin⟩ := ih m tr f
        (List.Nodup.of_cons hnd) hreads2 hreg
        (fun k hk => hfL k (List.mem_cons_of_mem rc hk))
      refine ⟨m2, tr2, hfold, hR, hC, fun k => ?_⟩
      rw [hfin k]
      by_cases hk : k = rc
      · subst hk
        have hcur : ¬ getCell? current k.1 k.2 = some true := by
          rw [his]; simp
        have hnf : ¬ f k := fun hf => by simpa using hfrc.mp hf
        simp [hrcL, hcur, hnf]
      · simp [List.mem_cons, hk]
    · -- dead → alive: play_sound
      have hstep : sounds_step previous current (Except.ok (m, tr)) rc =
          Except.ok ((play_sound m rc.1 rc.2).1, tr ++ (play_sound m rc.1 rc.2).2) := by
        unfold sounds_step
        rw [hwas, his]
      rw [hstep]
      have hnotin : (rc.1, rc.2) ∉ m.oscillators := by
        rw [Prod.mk.eta]
        intro hin
        exact absurd (hfrc.mp ((hreg rc).mp hin)) (by simp)
      have hosc : (play_sound m rc.1 rc.2).1.oscillators =
          m.oscillators ++ [(rc.1, rc.2)] :=
        play_sound_osc_of_not_mem m rc.1 rc.2 hnotin
      obtain ⟨m2, tr2, hfold, hR, hC, hfin⟩ := ih (play_sound m rc.1 rc.2).1
        (tr ++ (play_sound m rc.1 rc.2).2) (fun k => k = rc ∨ f k)
        (List.Nodup.of_cons hnd) hreads2
        (fun k => by
          rw [hosc, List.mem_append, List.mem_singleton, Prod.mk.eta, hreg k]
          tauto)
        (fun k hk => by
          have hkrc : k ≠ rc := fun h => hrcL (h ▸ hk)
          have h := hfL k (List.mem_cons_of_mem rc hk)
          exact ⟨fun hx => h.mp (hx.resolve_left hkrc),
            fun hx => Or.inr (h.mpr hx)⟩)
      refine ⟨m2, tr2, hfold, by rw [hR, play_sound_gridRows],
        by rw [hC, play_sound_gridCols], fun k => ?_⟩
      rw [hfin k]
      by_cases hk : k = rc
      · subst hk
        simp [hrcL, his]
      · simp [List.mem_cons, hk]
    · -- alive → dead: stop_sound
      have hstep : sounds_step previous current (Except.ok (m, tr)) rc =
          Except.ok ((stop_sound m rc.1 rc.2).1, tr ++ (stop_sound m rc.1 rc.2).2) := by
        unfold sounds_step
        rw [hwas, his]
      rw [hstep]
      have hin : (rc.1, rc.2) ∈ m.oscillators := by
        rw [Prod.mk.eta]
        exact (hreg rc).mpr (hfrc.mpr rfl)
      have hosc : (stop_sound m rc.1 rc.2).1.oscillators =
          m.oscillators.filter fun x => decide (x ≠ (rc.1, rc.2)) :=
        stop_sound_osc_of_mem m rc.1 rc.2 hin
      obtain ⟨m2, tr2, hfold, hR, hC, hfin⟩ := ih (stop_sound m rc.1 rc.2).1
        (tr ++ (stop_sound m rc.1 rc.2).2) (fun k => k ≠ rc ∧ f k)
        (List.Nodup.of_cons hnd) hreads2
        (fun k => by
          rw [hosc, List.mem_filter]
          simp only [decide_eq_true_eq, Prod.mk.eta, hreg k]
          tauto)
        (fun k hk => by
          have hkrc : k ≠ rc := fun h => hrcL (h ▸ hk)
          have h := hfL k (List.mem_cons_of_mem rc hk)
          exact ⟨fun hx => h.mp hx.2, fun hx => ⟨hkrc, h.mpr hx⟩⟩)
      refine ⟨m2, tr2, hfold, by rw [hR, stop_sound_gridRows],
        by rw [hC, stop_sound_gridCols], fun k => ?_⟩
      rw [hfin k]
      by_cases hk : k = rc
      · subst hk
        have hcur : ¬ getCell? current k.1 k.2 = some true := by
          rw [his]; simp
        simp [hrcL, hcur]
      · simp [List.mem_cons, hk]
    · -- alive → alive: no-op
      have hstep : sounds_step previous current (Except.ok (m, tr)) rc =
          Except.ok (m, tr) := by
        unfold sounds_step
        rw [hwas, his]
      rw [hstep]
      obtain ⟨m2, tr2, hfold, hR, hC, hfin⟩ := ih m tr f
        (List.Nodup.of_cons hnd) hreads2 hreg
        (fun k hk => hfL k (List.mem_cons_of_mem rc hk))
      refine ⟨m2, tr2, hfold, hR, hC, fun k => ?_⟩
      rw [hfin k]
      by_cases hk : k = rc
      · subst hk
        have hcur : getCell? current k.1 k.2 = some true := his
        have hf : f k := hfrc.mpr rfl
        simp [hrcL, hcur, hf]
      · simp [List.mem_cons, hk]

lemma update_sounds_restores (m : SoundManager)
    (previous current : List (List Bool))
    (hp : gridShape previous m.gridRows m.gridCols)
    (hc : gridShape current m.gridRows m.gridCols)
    (hreg : ∀ k, k ∈ m.oscillators ↔ aliveAt previous k) :
    ∃ m2 tr, update_sounds m previous current = Except.ok (m2, tr) ∧
      m2.gridRows = m.gridRows ∧ m2.gridCols = m.gridCols ∧
      (∀ k, k ∈ m2.oscillators ↔ aliveAt current k) := by
  obtain ⟨m2, tr2, hfold, hR, hC, hfin⟩ := sounds_fold_inv previous current
    (coordList m.gridRows m.gridCols) m [] (fun k => aliveAt previous k)
    nodup_coordList
    (fun rc hrc => by
      obtain ⟨h1, h2⟩ := mem_coordList.mp hrc
      rw [getCell?_of_shape hp h1 h2, getCell?_of_shape hc h1 h2]
      exact ⟨rfl, rfl⟩)
    (fun k => hreg k)
    (fun k _ => Iff.rfl)
  refine ⟨m2, tr2, hfold, hR, hC, fun k => ?_⟩
  rw [hfin k]
  by_cases hk : k ∈ coordList m.gridRows m.gridCols
  · simp [hk, aliveAt]
  · have hb : ¬(k.1 < m.gridRows ∧ k.2 < m.gridCols) :=
      fun hbb => hk (mem_coordList.mpr hbb)
    have h1 : getCell? previous k.1 k.2 = none := getCell?_none_of_out hp hb
    have h2 : getCell? current k.1 k.2 = none := getCell?_none_of_out hc hb
    simp [hk, aliveAt, h1, h2]

lemma reconcile_chain_inv :
    ∀ (gs : List (List (List Bool))) (m : SoundManager) (g0 : List (List Bool)),
      gridShape g0 m.gridRows m.gridCols →
      (∀ g ∈ gs, gridShape g m.gridRows m.gridCols) →
      (∀ k, k ∈ m.oscillators ↔ aliveAt g0 k) →
      ∃ m2, reconcile_chain m g0 gs = Except.ok m2 ∧
        (∀ k, k ∈ m2.oscillators ↔ aliveAt (gs.getLastD g0) k) := by
  intro gs
  induction gs with
  | nil => exact fun m g0 _ _ hreg => ⟨m, rfl, hreg⟩
  | cons g1 gs ih =>
    intro m g0 h0 hall hreg
    obtain ⟨m1, tr1, hcall, hR, hC, hfin⟩ := update_sounds_restores m g0 g1 h0
      (hall g1 (List.mem_cons_self g1 gs)) hreg
    have hstep : reconcile_chain m g0 (g1 :: gs) = reconcile_chain m1 g1 gs := by
      show (match update_sounds m g0 g1 with
        | Except.error e => Except.error e
        | Except.ok p => reconcile_chain p.1 g1 gs) = reconcile_chain m1 g1 gs
      rw [hcall]
    rw [hstep, List.getLastD_cons]
    exact ih m1 g1 (by rw [hR, hC]; exact hall g1 (List.mem_cons_self g1 gs))
      (fun g hg => by rw [hR, hC]; exact hall g (List.mem_cons_of_mem g1 hg)) hfin

/-- C2: assuming the registry's key set equals the live-cell set of
`previous` and both grid snapshots have the manager's grid dimensions,
`update_sounds` returns normally and afterwards the registry's key set
equals exactly the live-cell set of `current`; consequently, along any
driver-style sequence of such calls (each call's `previous` being the
preceding `current`), the invariant holds after every call, in
particular after the last one. -/
theorem c2_registry_invariant :
    (∀ (m : SoundManager) (previous current : List (List Bool)),
      gridShape previous m.gridRows m.gridCols →
      gridShape current m.gridRows m.gridCols →
      (∀ k, k ∈ m.oscillators ↔ aliveAt previous k) →
      ∃ m2 tr, update_sounds m previous current = Except.ok (m2, tr) ∧
        (∀ k, k ∈ m2.oscillators ↔ aliveAt current k)) ∧
    (∀ (m : SoundManager) (g0 : List (List Bool))
        (gs : List (List (List Bool))),
      gridShape g0 m.gridRows m.gridCols →
      (∀ g ∈ gs, gridShape g m.gridRows m.gridCols) →
      (∀ k, k ∈ m.oscillators ↔ aliveAt g0 k) →
      ∃ m2, reconcile_chain m g0 gs = Except.ok m2 ∧
        (∀ k, k ∈ m2.oscillators ↔ aliveAt (gs.getLastD g0) k)) := by
  constructor
  · intro m previous current hp hc hreg
    obtain ⟨m2, tr, h1, _, _, h2⟩ := update_sounds_restores m previous current hp hc hreg
    exact ⟨m2, tr, h1, h2⟩
  · exact fun m g0 gs h0 hall hreg => reconcile_chain_inv gs m g0 h0 hall hreg

lemma not_aliveAt_deadCells (R C : ℕ) (k : ℕ × ℕ) :
    ¬ aliveAt (deadCells R C) k := by
  intro h
  have hcell := cellD_deadCells R C k.1 k.2
  unfold cellD at hcell
  rw [aliveAt] at h
  rw [h] at hcell
  simp at hcell

/-- Witness for C2 at a concrete input: a fresh 1×1 manager with an
empty registry; one reconcile call from the all-dead grid to a live
grid, and a two-call chain going live then dead again. -/
theorem c2_registry_invariant_witness :
    (∃ m2 tr, update_sounds (mkManager 1 1 []) (deadCells 1 1) [[true]] =
        Except.ok (m2, tr) ∧
      (∀ k, k ∈ m2.oscillators ↔ aliveAt [[true]] k)) ∧
    (∃ m2, reconcile_chain (mkManager 1 1 []) (deadCells 1 1)
        [[[true]], deadCells 1 1] = Except.ok m2 ∧
      (∀ k, k ∈ m2.oscillators ↔
        aliveAt ([[[true]], deadCells 1 1].getLastD (deadCells 1 1)) k)) := by
  constructor
  · exact c2_registry_invariant.1 (mkManager 1 1 []) (deadCells 1 1) [[true]]
      (by unfold gridShape; exact ⟨by decide, by decide⟩)
      (by unfold gridShape; exact ⟨by decide, by decide⟩)
      (fun k => ⟨fun h => absurd h (List.not_mem_nil k),
        fun h => absurd h (not_aliveAt_deadCells 1 1 k)⟩)
  · exact c2_registry_invariant.2 (mkManager 1 1 []) (deadCells 1 1)
      [[[true]], deadCells 1 1]
      (by unfold gridShape; exact ⟨by decide, by decide⟩)
      (by
        intro g hg
        rcases List.mem_cons.mp hg with h | h
        · subst h; unfold gridShape; exact ⟨by decide, by decide⟩
        · rcases List.mem_cons.mp h with h2 | h2
          · subst h2; unfold gridShape; exact ⟨by decide, by decide⟩
          · exact absurd h2 (List.not_mem_nil g))
      (fun k => ⟨fun h => absurd h (List.not_mem_nil k),
        fun h => absurd h (not_aliveAt_deadCells 1 1 k)⟩)
